import Mathlib

/-!
Verification of the FTL statistics API (`api.c`) against its specification.

The definitions below are a shallow embedding of the C source:

* growable entity tables (`domainsData`, `clientsData`) become Lean lists
  indexed by the stable integer identifier;
* the query log becomes a list of `queriesData` records;
* C `int` fields become `Int`, the `unsigned long` latency becomes `Nat`,
  enum values (query statuses, privacy levels, query types) become the
  concrete integer values documented in the source;
* `qsort` is modelled by its contract (`qsortPost`): the output is a
  permutation of the input that is sorted with respect to the comparison
  function (the C standard leaves the order of elements comparing equal
  unspecified, so ranking endpoints are modelled as relations);
* functions whose body is missing from the sources (string interning,
  `insetupVarsArray`, `in_auditlist`, `getDomainString`, ...) are modelled
  from the specification and marked as such in their doc comments.
-/

/-! ## Enumeration constants

Query status values, as documented in `getAllQueries`:
"1 = gravity.list, 4 = wildcard, 5 = black.list" and "2 = forwarded, 3 = cached". -/

def QUERY_GRAVITY : Nat := 1
def QUERY_FORWARDED : Nat := 2
def QUERY_CACHE : Nat := 3
def QUERY_WILDCARD : Nat := 4
def QUERY_BLACKLIST : Nat := 5

/-- Privacy levels form an ordered enum: show everything (0), hide domains (1),
hide domains and clients (2), maximum privacy (3). -/
def PRIVACY_SHOW_ALL : Nat := 0
def PRIVACY_HIDE_DOMAINS : Nat := 1
def PRIVACY_HIDE_DOMAINS_CLIENTS : Nat := 2
def PRIVACY_MAXIMUM : Nat := 3

/-- Modelled from the spec: the synthetic "hidden" placeholder string substituted
by the privacy gate when a domain was anonymized at record time (`HIDDEN_DOMAIN`
from the missing header). Its concrete value is irrelevant to the claims; only
equality tests against it matter. -/
def HIDDEN_DOMAIN : String := "hidden"

/-- Modelled from the spec: the placeholder for an anonymized client
(`HIDDEN_CLIENT` from the missing header). -/
def HIDDEN_CLIENT : String := "0.0.0.0"

/-- Modelled from the spec: `insetupVarsArray` (setupVars.c, not among the
sources) — membership in an exclusion list is an exact string match against the
parsed configuration value. -/
def insetupVarsArray (arr : List String) (s : String) : Bool := arr.contains s

/-- Modelled from the spec: `in_auditlist` (gravity-db.c, not among the
sources) — membership of a domain in the external audit allow-list. -/
def in_auditlist (auditlist : List String) (s : String) : Bool := auditlist.contains s

/-! ## qsort comparison functions (`cmpasc`, `cmpdesc`)

The C comparators receive pointers to `int[2]` pairs `(identifier, count)` and
compare only the count field (`elem[1]`). -/

/-- qsort comparison function (count field), sort ASC (`cmpasc` in api.c). -/
def cmpasc (a b : Int × Int) : Int :=
  if a.2 < b.2 then -1
  else if a.2 > b.2 then 1
  else 0

/-- qsort subroutine, sort DESC (`cmpdesc` in api.c). -/
def cmpdesc (a b : Int × Int) : Int :=
  if a.2 > b.2 then -1
  else if a.2 < b.2 then 1
  else 0

/-- An array is sorted with respect to a qsort comparator when every adjacent
pair compares non-positively. -/
def sortedByCmp (cmp : Int × Int → Int × Int → Int) : List (Int × Int) → Bool
  | [] => true
  | [_] => true
  | a :: b :: rest => decide (cmp a b ≤ 0) && sortedByCmp cmp (b :: rest)

/-- The contract of C `qsort`: the output is a permutation of the input and is
sorted with respect to the comparator. The relative order of elements that
compare equal is unspecified by the C standard, so any output satisfying this
post-condition is an admissible behaviour of the code. -/
def qsortPost (cmp : Int × Int → Int × Int → Int) (input output : List (Int × Int)) : Prop :=
  List.Perm input output ∧ sortedByCmp cmp output = true

/-! ## Entity tables -/

/-- Per-domain aggregate counters (`domainsData`): display string, total query
count and blocked query count. The identifier of a domain is its index in the
table. -/
structure domainsData where
  domainpos : String
  count : Int
  blockedcount : Int
  deriving DecidableEq, Repr

def defaultDomain : domainsData := ⟨"", 0, 0⟩

/-- `getDomain(domainID, true)`: the table entry at the given identifier. -/
def getDomain (table : List domainsData) (id : Nat) : domainsData :=
  table.getD id defaultDomain

/-- Per-client aggregate counters (`clientsData`): IP display string, host name
display string, total and blocked counts. -/
structure clientsData where
  ippos : String
  namepos : String
  count : Int
  blockedcount : Int
  deriving DecidableEq, Repr

def defaultClient : clientsData := ⟨"", "", 0, 0⟩

/-- `getClient(clientID, true)`: the table entry at the given identifier. -/
def getClient (table : List clientsData) (id : Nat) : clientsData :=
  table.getD id defaultClient

/-! ## Top domains (`api_stats_top_domains`) -/

/-- Configuration snapshot consumed by `api_stats_top_domains`: the global
privacy level, the `blocked` request flag, the (commented-out, default `false`)
`asc` and `audit` options, the row budget `show` (10 in the source), the
`API_QUERY_LOG_SHOW` filter decoded into two booleans, the
`API_EXCLUDE_DOMAINS` list (`none` when the configuration key is absent) and
the external audit list. -/
structure DomainsCfg where
  privacylevel : Nat
  blocked : Bool
  asc : Bool
  audit : Bool
  show_ : Int
  showpermitted : Bool
  showblocked : Bool
  excludedomains : Option (List String)
  auditlist : List String
  deriving Repr

/-- The temporary array filled before sorting: for each domain identifier the
pair `(domainID, metric)` where the metric is the blocked count, or the
permitted count `count - blockedcount`, depending on the `blocked` flag. -/
def domainsTemparray (table : List domainsData) (blocked : Bool) : List (Int × Int) :=
  (List.range table.length).map fun id =>
    let domain := getDomain table id
    ((id : Int), if blocked then domain.blockedcount else domain.count - domain.blockedcount)

/-- The three `continue` checks at the head of the emission loop of
`api_stats_top_domains` (their bodies are identical, so they are merged into
one disjunction): skip an excluded domain (the exclusion list is only read
when `audit` is off), skip an already audited domain when `audit` is on, skip
the hidden placeholder. -/
def topDomainsSkip (table : List domainsData) (cfg : DomainsCfg) (p : Int × Int) : Bool :=
  let name := (getDomain table p.1.toNat).domainpos
  (!cfg.audit && (match cfg.excludedomains with
                  | some arr => insetupVarsArray arr name
                  | none => false)) ||
  (cfg.audit && in_auditlist cfg.auditlist name) ||
  (name == HIDDEN_DOMAIN)

/-- The `count` variable of the emission loop: it starts at `-1` and is
overwritten with the recomputed metric only when the corresponding show-flag
is set and the metric is strictly positive; a row is emitted exactly when
`count > -1`. -/
def topDomainsCount (table : List domainsData) (cfg : DomainsCfg) (p : Int × Int) : Int :=
  let domain := getDomain table p.1.toNat
  if cfg.blocked && cfg.showblocked && decide (0 < domain.blockedcount) then
    domain.blockedcount
  else if !cfg.blocked && cfg.showpermitted &&
          decide (0 < domain.count - domain.blockedcount) then
    domain.count - domain.blockedcount
  else -1

/-- The emission loop of `api_stats_top_domains`, walking the sorted array with
running counter `n` of emitted rows; the loop breaks once `n` reaches
`show_`. -/
def topDomainsLoop (table : List domainsData) (cfg : DomainsCfg) :
    List (Int × Int) → Int → List (String × Int)
  | [], _ => []
  | p :: rest, n =>
    if topDomainsSkip table cfg p then
      topDomainsLoop table cfg rest n
    else
      let count := topDomainsCount table cfg p
      let n' : Int := if decide (-1 < count) then n + 1 else n
      let tail := if n' == cfg.show_ then [] else topDomainsLoop table cfg rest n'
      if decide (-1 < count) then ((getDomain table p.1.toNat).domainpos, count) :: tail
      else tail

/-- The behaviour of `api_stats_top_domains` as a relation between the
configuration snapshot, the domain table and the emitted rows `(domain,
count)`. If the privacy level hides domains the endpoint sends an empty array
before touching any data; otherwise the temporary array is qsorted with
`cmpasc`/`cmpdesc` (any comparator-consistent permutation is admissible) and
the emission loop runs over the sorted array. -/
def api_stats_top_domains_rel (cfg : DomainsCfg) (table : List domainsData)
    (out : List (String × Int)) : Prop :=
  if PRIVACY_HIDE_DOMAINS ≤ cfg.privacylevel then
    out = []
  else
    ∃ sorted,
      qsortPost (if cfg.asc then cmpasc else cmpdesc) (domainsTemparray table cfg.blocked) sorted ∧
      out = topDomainsLoop table cfg sorted 0

/-! ## Top clients (`getTopClients`) -/

/-- Configuration snapshot consumed by `getTopClients`: the global privacy
level, the (commented-out, default `false`) `blocked`, `withzero` and `asc`
options, the row budget `count` (10 in the source) and the
`API_EXCLUDE_CLIENTS` list (`none` when the configuration key is absent). -/
structure ClientsCfg where
  privacylevel : Nat
  blockedonly : Bool
  includezeroclients : Bool
  asc : Bool
  count_ : Int
  excludeclients : Option (List String)
  deriving Repr

/-- The temporary array filled before sorting: for each client identifier the
pair `(clientID, metric)` where the metric is the blocked count or the total
count depending on the `blockedonly` flag. -/
def clientsTemparray (table : List clientsData) (blockedonly : Bool) : List (Int × Int) :=
  (List.range table.length).map fun id =>
    let client := getClient table id
    ((id : Int), if blockedonly then client.blockedcount else client.count)

/-- The two `continue` checks at the head of the emission loop of
`getTopClients` (identical bodies, merged into one disjunction): skip a client
whose IP or host name matches the exclusion list, skip the hidden
placeholder. -/
def topClientsSkip (table : List clientsData) (cfg : ClientsCfg) (p : Int × Int) : Bool :=
  let client := getClient table p.1.toNat
  (match cfg.excludeclients with
   | some arr => insetupVarsArray arr client.ippos || insetupVarsArray arr client.namepos
   | none => false) ||
  (client.ippos == HIDDEN_CLIENT)

/-- The emission condition of `getTopClients`: a client is returned when the
`withzero` option is set or it made at least one query (its count from the
sorted array is strictly positive). -/
def topClientsEmit (cfg : ClientsCfg) (p : Int × Int) : Bool :=
  cfg.includezeroclients || decide (0 < p.2)

/-- The emission loop of `getTopClients`, walking the sorted array with running
counter `n`; the row is `(ccount, ip, name)` with the count taken from the
sorted array; the loop breaks once `n` reaches `count_`. -/
def topClientsLoop (table : List clientsData) (cfg : ClientsCfg) :
    List (Int × Int) → Int → List (Int × String × String)
  | [], _ => []
  | p :: rest, n =>
    if topClientsSkip table cfg p then
      topClientsLoop table cfg rest n
    else
      let n' : Int := if topClientsEmit cfg p then n + 1 else n
      let tail := if n' == cfg.count_ then [] else topClientsLoop table cfg rest n'
      if topClientsEmit cfg p then
        (p.2, (getClient table p.1.toNat).ippos, (getClient table p.1.toNat).namepos) :: tail
      else tail

/-- The behaviour of `getTopClients` as a relation between the configuration
snapshot, the client table and the emitted rows `(count, ip, name)`. When the
privacy level hides clients the function returns before processing any data
(no output); otherwise any qsort-consistent ordering of the temporary array
may be emitted. -/
def getTopClients_rel (cfg : ClientsCfg) (table : List clientsData)
    (out : List (Int × String × String)) : Prop :=
  if PRIVACY_HIDE_DOMAINS_CLIENTS ≤ cfg.privacylevel then
    out = []
  else
    ∃ sorted,
      qsortPost (if cfg.asc then cmpasc else cmpdesc) (clientsTemparray table cfg.blockedonly) sorted ∧
      out = topClientsLoop table cfg sorted 0

/-! ## Query log scan (`getAllQueries`) -/

/-- Recognized query types: `querytypes[8]` in the source; a record whose type
is not below `TYPE_MAX` is skipped. -/
def querytypes : List String := ["A", "AAAA", "ANY", "SRV", "SOA", "PTR", "TXT", "UNKN"]

def TYPE_MAX : Nat := 8

/-- A raw query record (`queriesData`): timestamp, query type, status, entity
identifiers, the privacy level in force when the record was created, DNSSEC
status, reply type and the response latency (`unsigned long`). -/
structure queriesData where
  timestamp : Int
  type : Nat
  status : Nat
  domainID : Nat
  clientID : Nat
  forwardID : Int
  privacylevel : Nat
  dnssec : Int
  reply : Int
  response : Nat
  deriving DecidableEq, Repr

def defaultQuery : queriesData := ⟨0, 0, 0, 0, 0, 0, 0, 0, 0, 0⟩

/-- `getQuery(queryID, true)`: the log entry at the given index. -/
def getQuery (log : List queriesData) (id : Nat) : queriesData :=
  log.getD id defaultQuery

/-- The predicate set of `getAllQueries` (the parsing of the client message
into these fields is present in the source only as commented-out code; the
filter application in the scan loop is live and modelled here): time range
(`0` means unbounded), domain/client identifier filters, query type filter
(`0` means all), upstream filter with the two special identifiers `-2`
(blocklist) and `-1` (cache), and the `API_QUERY_LOG_SHOW` show-flags. -/
structure ScanCfg where
  privacylevel : Nat
  fromTime : Int
  untilTime : Int
  filterdomainname : Bool
  domainid : Int
  filterclientname : Bool
  clientid : Int
  querytype : Nat
  filterforwarddest : Bool
  forwarddestid : Int
  showpermitted : Bool
  showblocked : Bool
  deriving Repr

/-- The statuses treated as "blocked" by the scan: exactly the three equality
tests `QUERY_GRAVITY`, `QUERY_WILDCARD`, `QUERY_BLACKLIST` from the source. -/
def isBlockedStatus (status : Nat) : Bool :=
  status == QUERY_GRAVITY || status == QUERY_WILDCARD || status == QUERY_BLACKLIST

/-- The statuses treated as "permitted" by the scan: `QUERY_FORWARDED` and
`QUERY_CACHE`. -/
def isPermittedStatus (status : Nat) : Bool :=
  status == QUERY_FORWARDED || status == QUERY_CACHE

/-- The upstream-filter check of the scan loop: skip when the requested
destination is the blocklist (`-2`) and the status is not a blocked one, when
it is the cache (`-1`) and the status is not `QUERY_CACHE`, or when it is a
real upstream identifier (`≥ 0`) different from the record's `forwardID`.
Returns `true` when the record survives the filter. -/
def forwarddestPasses (cfg : ScanCfg) (q : queriesData) : Bool :=
  !((cfg.forwarddestid == -2 && !isBlockedStatus q.status) ||
    (cfg.forwarddestid == -1 && !(q.status == QUERY_CACHE)) ||
    (decide (0 ≤ cfg.forwarddestid) && !(cfg.forwarddestid == q.forwardID)))

/-- The conjunction of all per-record `continue` checks of the scan loop, in
source order: record-level privacy, recognized query type, blocked/permitted
show-flag gating, time range, domain filter, client filter, query-type filter
and upstream filter. -/
def queryPasses (cfg : ScanCfg) (q : queriesData) : Bool :=
  decide (q.privacylevel < PRIVACY_MAXIMUM) &&
  decide (q.type < TYPE_MAX) &&
  !(isBlockedStatus q.status && !cfg.showblocked) &&
  !(isPermittedStatus q.status && !cfg.showpermitted) &&
  !((decide (cfg.fromTime > q.timestamp) && !(cfg.fromTime == 0)) ||
    (decide (q.timestamp > cfg.untilTime) && !(cfg.untilTime == 0))) &&
  !(cfg.filterdomainname && !((q.domainID : Int) == cfg.domainid)) &&
  !(cfg.filterclientname && !((q.clientID : Int) == cfg.clientid)) &&
  !(!(cfg.querytype == 0) && !(cfg.querytype == q.type)) &&
  !(cfg.filterforwarddest && !forwarddestPasses cfg q)

/-- Modelled from the spec: `getDomainString` (datastructure.c, not among the
sources) — the domain's display string, or the hidden placeholder when the
privacy level recorded with the query forbids domain disclosure. -/
def getDomainStringQ (domains : List domainsData) (q : queriesData) : String :=
  if PRIVACY_HIDE_DOMAINS ≤ q.privacylevel then HIDDEN_DOMAIN
  else (getDomain domains q.domainID).domainpos

/-- Modelled from the spec: `getClientIPString` (datastructure.c, not among the
sources) — the client's IP display string, or the hidden placeholder when the
privacy level recorded with the query forbids client disclosure. -/
def getClientIPStringQ (clients : List clientsData) (q : queriesData) : String :=
  if PRIVACY_HIDE_DOMAINS_CLIENTS ≤ q.privacylevel then HIDDEN_CLIENT
  else (getClient clients q.clientID).ippos

/-- Modelled from the spec: `getClientNameString` (datastructure.c, not among
the sources) — the client's host name, or the hidden placeholder when the
privacy level recorded with the query forbids client disclosure. -/
def getClientNameStringQ (clients : List clientsData) (q : queriesData) : String :=
  if PRIVACY_HIDE_DOMAINS_CLIENTS ≤ q.privacylevel then HIDDEN_CLIENT
  else (getClient clients q.clientID).namepos

/-- One line of `getAllQueries` output. -/
structure QueryRow where
  timestamp : Int
  qtype : String
  domain : String
  client : String
  status : Nat
  dnssec : Int
  reply : Int
  delay : Nat
  deriving DecidableEq, Repr

/-- The view row built from a record that passes all predicates: the query type
string, the (possibly hidden) domain and client strings, and the latency with
the `1.8e7` sanity ceiling applied (`delay` is reported as `0` above it). The
client string uses the host name when the raw record has one, the IP text
otherwise. -/
def queryRow (domains : List domainsData) (clients : List clientsData)
    (cfg : ScanCfg) (q : queriesData) : Option QueryRow :=
  if queryPasses cfg q then
    let client := getClient clients q.clientID
    some
      { timestamp := q.timestamp
        qtype := querytypes.getD q.type "UNKN"
        domain := getDomainStringQ domains q
        client := if 0 < client.namepos.length then getClientNameStringQ clients q
                  else getClientIPStringQ clients q
        status := q.status
        dnssec := q.dnssec
        reply := q.reply
        delay := if 18000000 < q.response then 0 else q.response }
  else none

/-- `getAllQueries`: at maximum privacy the scan returns before processing any
data; otherwise, when a record-count limit `n` was supplied, the scan starts at
`ibeg = max 0 (counters->queries - n)` and every surviving record of the tail
produces one output row. -/
def getAllQueries (domains : List domainsData) (clients : List clientsData)
    (cfg : ScanCfg) (log : List queriesData) (num : Option Int) : List QueryRow :=
  if PRIVACY_MAXIMUM ≤ cfg.privacylevel then []
  else
    let ibeg : Int := match num with
      | none => 0
      | some n => max 0 ((log.length : Int) - n)
    (log.drop ibeg.toNat).filterMap (queryRow domains clients cfg)

/-! ## overTime window locator (`api_stats_overTime_history`) -/

/-- One overTime slot: left-edge timestamp, total and blocked counters. -/
structure overTimeData where
  timestamp : Int
  total : Int
  blocked : Int
  deriving DecidableEq, Repr

def defaultSlot : overTimeData := ⟨0, 0, 0⟩

/-- Index of the first list element satisfying the predicate, if any (the
forward scans of `api_stats_overTime_history` written as a recursion). -/
def firstIdx (p : α → Bool) : List α → Option Nat
  | [] => none
  | a :: l => if p a then some 0 else (firstIdx p l).map (· + 1)

/-- `mintime = overTime[0].timestamp`. -/
def overTime_mintime (slots : List overTimeData) : Int :=
  (slots.headD defaultSlot).timestamp

/-- The first loop of `api_stats_overTime_history`: the window start is the
first slot with `total > 0 || blocked > 0` whose timestamp is at least
`mintime`; `none` when no such slot exists (`found` stays false). -/
def overTime_from (slots : List overTimeData) : Option Nat :=
  firstIdx
    (fun s => (decide (0 < s.total) || decide (0 < s.blocked)) &&
              decide (overTime_mintime slots ≤ s.timestamp))
    slots

/-- The second loop of `api_stats_overTime_history`: the window end is the
first slot whose timestamp is at least the current wall-clock time, or the
array length when no such slot exists. -/
def overTime_until (slots : List overTimeData) (now : Int) : Nat :=
  (firstIdx (fun s => decide (now ≤ s.timestamp)) slots).getD slots.length

/-- `api_stats_overTime_history`: an empty series when no non-empty slot was
found, otherwise the slots of the half-open range `[from, until)`. -/
def api_stats_overTime_history (slots : List overTimeData) (now : Int) :
    List overTimeData :=
  match overTime_from slots with
  | none => []
  | some f => (slots.take (overTime_until slots now)).drop f

/-! ## Recent blocked (`getRecentBlocked`) -/

/-- The backward scan of `getRecentBlocked`, with the current index as the
recursion variable: the loop condition is `queryID > 0`, so index `0` is never
examined. A blocked record emits its (possibly hidden) domain string and
increments `found`; the loop stops once `found >= num`. -/
def recentBlockedLoop (domains : List domainsData) (log : List queriesData)
    (num : Int) : Nat → Int → List String
  | 0, _ => []
  | i + 1, found =>
    let q := getQuery log (i + 1)
    if isBlockedStatus q.status then
      if num ≤ found + 1 then [getDomainStringQ domains q]
      else getDomainStringQ domains q :: recentBlockedLoop domains log num i (found + 1)
    else
      if num ≤ found then []
      else recentBlockedLoop domains log num i found

/-- `getRecentBlocked`: the requested number of entries defaults to `1`; a
supplied value of at least the log length is replaced by `0`; the scan starts
at `counters->queries - 1` and walks down while the index stays positive. -/
def getRecentBlocked (domains : List domainsData) (log : List queriesData)
    (numArg : Option Int) : List String :=
  let num : Int := match numArg with
    | none => 1
    | some n => if (log.length : Int) ≤ n then 0 else n
  recentBlockedLoop domains log num (log.length - 1) 0

/-! ## Summary (`api_stats_summary`) -/

/-- The blocked-percentage computation of `api_stats_summary`: starts at `0`
and is overwritten with `1e2 * blocked / total` only under the guard
`total > 0` ("Avoid 1/0 condition"). The C `float` arithmetic is modelled over
`ℚ`; the claim under verification concerns the guard, not rounding. -/
def percent_blocked (blocked total : Int) : ℚ :=
  if 0 < total then 100 * (blocked : ℚ) / (total : ℚ) else 0

instance (cmp : Int × Int → Int × Int → Int) (input output : List (Int × Int)) :
    Decidable (qsortPost cmp input output) :=
  inferInstanceAs (Decidable (List.Perm input output ∧ sortedByCmp cmp output = true))

/-! ## Helper lemmas -/

theorem firstIdx_eq_none (p : α → Bool) :
    ∀ l : List α, (∀ a ∈ l, p a = false) → firstIdx p l = none := by
  intro l
  induction l with
  | nil => intro _; rfl
  | cons a l ih =>
    intro h
    have ha : p a = false := h a (List.mem_cons_self a l)
    have hl : firstIdx p l = none := ih fun b hb => h b (List.mem_cons_of_mem a hb)
    simp [firstIdx, ha, hl]

theorem firstIdx_eq_some (p : α → Bool) (d : α) :
    ∀ (l : List α) (k : Nat), k < l.length →
      (∀ j, j < k → p (l.getD j d) = false) →
      p (l.getD k d) = true →
      firstIdx p l = some k := by
  intro l
  induction l with
  | nil => intro k hk; simp at hk
  | cons a l ih =>
    intro k hk hbefore hat
    cases k with
    | zero =>
      simp only [List.getD_cons_zero] at hat
      simp [firstIdx, hat]
    | succ k =>
      have ha : p a = false := by
        have := hbefore 0 (Nat.succ_pos k)
        simpa using this
      have hl : firstIdx p l = some k := by
        apply ih
        · simpa using hk
        · intro j hj
          have := hbefore (j + 1) (by omega)
          simpa using this
        · simpa using hat
      simp [firstIdx, ha, hl]

/-- Every row emitted by the top-domains loop comes from a pair of the sorted
array: it survived the skip checks, the emission guard `count > -1` held, and
the row is the domain's display string with the recomputed count. -/
theorem topDomainsLoop_mem (table : List domainsData) (cfg : DomainsCfg) :
    ∀ (arr : List (Int × Int)) (n : Int) (r : String × Int),
      r ∈ topDomainsLoop table cfg arr n →
      ∃ p ∈ arr,
        r = ((getDomain table p.1.toNat).domainpos, topDomainsCount table cfg p) ∧
        topDomainsSkip table cfg p = false ∧
        -1 < topDomainsCount table cfg p := by
  intro arr
  induction arr with
  | nil => intro n r h; simp [topDomainsLoop] at h
  | cons p rest ih =>
    intro n r h
    rw [topDomainsLoop] at h
    by_cases hskip : topDomainsSkip table cfg p = true
    · rw [if_pos hskip] at h
      obtain ⟨q, hq, hrest⟩ := ih _ _ h
      exact ⟨q, List.mem_cons_of_mem p hq, hrest⟩
    · rw [if_neg hskip] at h
      simp only [] at h
      by_cases hemit : decide (-1 < topDomainsCount table cfg p) = true
      · rw [if_pos hemit] at h
        rcases List.mem_cons.mp h with rfl | htail
        · exact ⟨p, List.mem_cons_self p rest,
            rfl, Bool.eq_false_iff.mpr hskip, of_decide_eq_true hemit⟩
        · by_cases hstop : ((if decide (-1 < topDomainsCount table cfg p) = true
              then n + 1 else n) == cfg.show_) = true
          · rw [if_pos hstop] at htail
            simp at htail
          · rw [if_neg hstop] at htail
            obtain ⟨q, hq, hrest⟩ := ih _ _ htail
            exact ⟨q, List.mem_cons_of_mem p hq, hrest⟩
      · rw [if_neg hemit] at h
        by_cases hstop : ((if decide (-1 < topDomainsCount table cfg p) = true
            then n + 1 else n) == cfg.show_) = true
        · rw [if_pos hstop] at h
          simp at h
        · rw [if_neg hstop] at h
          obtain ⟨q, hq, hrest⟩ := ih _ _ h
          exact ⟨q, List.mem_cons_of_mem p hq, hrest⟩

/-- Every row emitted by the top-clients loop comes from a pair of the sorted
array: it survived the skip checks, the emission guard held, and the row is
the count from the sorted array with the client's display strings. -/
theorem topClientsLoop_mem (table : List clientsData) (cfg : ClientsCfg) :
    ∀ (arr : List (Int × Int)) (n : Int) (r : Int × String × String),
      r ∈ topClientsLoop table cfg arr n →
      ∃ p ∈ arr,
        r = (p.2, (getClient table p.1.toNat).ippos, (getClient table p.1.toNat).namepos) ∧
        topClientsSkip table cfg p = false ∧
        topClientsEmit cfg p = true := by
  intro arr
  induction arr with
  | nil => intro n r h; simp [topClientsLoop] at h
  | cons p rest ih =>
    intro n r h
    rw [topClientsLoop] at h
    by_cases hskip : topClientsSkip table cfg p = true
    · rw [if_pos hskip] at h
      obtain ⟨q, hq, hrest⟩ := ih _ _ h
      exact ⟨q, List.mem_cons_of_mem p hq, hrest⟩
    · rw [if_neg hskip] at h
      simp only [] at h
      by_cases hemit : topClientsEmit cfg p = true
      · rw [if_pos hemit] at h
        rcases List.mem_cons.mp h with rfl | htail
        · exact ⟨p, List.mem_cons_self p rest, rfl, Bool.eq_false_iff.mpr hskip, hemit⟩
        · by_cases hstop : ((if topClientsEmit cfg p = true then n + 1 else n) == cfg.count_) = true
          · rw [if_pos hstop] at htail
            simp at htail
          · rw [if_neg hstop] at htail
            obtain ⟨q, hq, hrest⟩ := ih _ _ htail
            exact ⟨q, List.mem_cons_of_mem p hq, hrest⟩
      · rw [if_neg hemit] at h
        by_cases hstop : ((if topClientsEmit cfg p = true then n + 1 else n) == cfg.count_) = true
        · rw [if_pos hstop] at h
          simp at h
        · rw [if_neg hstop] at h
          obtain ⟨q, hq, hrest⟩ := ih _ _ h
          exact ⟨q, List.mem_cons_of_mem p hq, hrest⟩

/-- The top-domains emission loop emits at most `show_ - n` further rows when
the running counter `n` is still below the budget: `n` is incremented exactly
when a row is emitted and the loop breaks as soon as it equals `show_`. -/
theorem topDomainsLoop_length (table : List domainsData) (cfg : DomainsCfg) :
    ∀ (arr : List (Int × Int)) (n : Int), n < cfg.show_ →
      ((topDomainsLoop table cfg arr n).length : Int) ≤ cfg.show_ - n := by
  intro arr
  induction arr with
  | nil => intro n hn; simp [topDomainsLoop]; omega
  | cons p rest ih =>
    intro n hn
    rw [topDomainsLoop]
    by_cases hskip : topDomainsSkip table cfg p = true
    · rw [if_pos hskip]
      exact ih n hn
    · rw [if_neg hskip]
      simp only []
      by_cases hemit : decide (-1 < topDomainsCount table cfg p) = true
      · simp only [hemit, if_true]
        by_cases hstop : ((n + 1 : Int) == cfg.show_) = true
        · have heq : n + 1 = cfg.show_ := eq_of_beq hstop
          simp [hstop]
          omega
        · have hne : n + 1 ≠ cfg.show_ := fun h => hstop (by simp [h])
          have hlt : n + 1 < cfg.show_ := by omega
          have := ih (n + 1) hlt
          simp only [hstop, if_false, Bool.false_eq_true, List.length_cons]
          push_cast
          omega
      · simp only [hemit, if_false, Bool.false_eq_true]
        have hne : n ≠ cfg.show_ := by omega
        have hstop : ((n : Int) == cfg.show_) = false := by simp [hne]
        simp only [hstop, if_false, Bool.false_eq_true]
        have := ih n hn
        omega

/-- The top-clients emission loop emits at most `count_ - n` further rows when
the running counter `n` is still below the budget. -/
theorem topClientsLoop_length (table : List clientsData) (cfg : ClientsCfg) :
    ∀ (arr : List (Int × Int)) (n : Int), n < cfg.count_ →
      ((topClientsLoop table cfg arr n).length : Int) ≤ cfg.count_ - n := by
  intro arr
  induction arr with
  | nil => intro n hn; simp [topClientsLoop]; omega
  | cons p rest ih =>
    intro n hn
    rw [topClientsLoop]
    by_cases hskip : topClientsSkip table cfg p = true
    · rw [if_pos hskip]
      exact ih n hn
    · rw [if_neg hskip]
      simp only []
      by_cases hemit : topClientsEmit cfg p = true
      · simp only [hemit, if_true]
        by_cases hstop : ((n + 1 : Int) == cfg.count_) = true
        · have heq : n + 1 = cfg.count_ := eq_of_beq hstop
          simp [hstop]
          omega
        · have hne : n + 1 ≠ cfg.count_ := fun h => hstop (by simp [h])
          have hlt : n + 1 < cfg.count_ := by omega
          have := ih (n + 1) hlt
          simp only [hstop, if_false, Bool.false_eq_true, List.length_cons]
          push_cast
          omega
      · simp only [hemit, if_false, Bool.false_eq_true]
        have hne : n ≠ cfg.count_ := by omega
        have hstop : ((n : Int) == cfg.count_) = false := by simp [hne]
        simp only [hstop, if_false, Bool.false_eq_true]
        have := ih n hn
        omega

/-! ## Claims -/

/-- Claim C10: in the summary view the blocked-percentage division is guarded:
it is computed as `100 * blocked / total` only when the total query counter is
strictly positive, it is reported as `0` when the total is `0`, and under the
guard the divisor is non-zero, so no division by zero occurs. -/
theorem C10_percent_blocked_guarded (blocked total : Int) :
    (total = 0 → percent_blocked blocked total = 0) ∧
    (0 < total →
      percent_blocked blocked total = 100 * (blocked : ℚ) / (total : ℚ) ∧
      ((total : ℚ) ≠ 0)) := by
  constructor
  · intro h
    simp [percent_blocked, h]
  · intro h
    refine ⟨by simp [percent_blocked, h], ?_⟩
    exact Int.cast_ne_zero.mpr (by omega)

/-- Witness for C10: with `total = 0` the reported percentage is `0`; with
`blocked = 1`, `total = 4` the division is performed on a non-zero divisor. -/
theorem C10_witness :
    percent_blocked 5 0 = 0 ∧ percent_blocked 1 4 = 100 * (1 : ℚ) / 4 := by
  exact ⟨(C10_percent_blocked_guarded 5 0).1 rfl,
         ((C10_percent_blocked_guarded 1 4).2 (by norm_num)).1⟩

/-- Claim C8: for every record emitted by the query-log scan, a response
latency above the `1.8e7` sanity ceiling is reported as `0`. -/
theorem C8_latency_ceiling (domains : List domainsData) (clients : List clientsData)
    (cfg : ScanCfg) (q : queriesData) (r : QueryRow) :
    18000000 < q.response → queryRow domains clients cfg q = some r → r.delay = 0 := by
  intro hlat h
  rw [queryRow] at h
  by_cases hp : queryPasses cfg q = true
  · rw [if_pos hp] at h
    cases h
    simp [hlat]
  · rw [if_neg hp] at h
    cases h

/-- Witness for C8: a record with `responseLatency = 20000000` microseconds
passes all default predicates and is reported with latency `0`. -/
theorem C8_witness :
    (18000000 : Nat) < 20000000 ∧
    queryRow [⟨"d", 1, 0⟩] [⟨"ip", "", 1, 0⟩]
      ⟨0, 0, 0, false, 0, false, 0, 0, false, 0, true, true⟩
      ⟨50, 0, 2, 0, 0, 0, 0, 0, 0, 20000000⟩ =
      some ⟨50, "A", "d", "ip", 2, 0, 0, 0⟩ ∧
    (⟨50, "A", "d", "ip", 2, 0, 0, 0⟩ : QueryRow).delay = 0 := by
  refine ⟨by decide, by decide, ?_⟩
  exact C8_latency_ceiling [⟨"d", 1, 0⟩] [⟨"ip", "", 1, 0⟩]
    ⟨0, 0, 0, false, 0, false, 0, 0, false, 0, true, true⟩
    ⟨50, 0, 2, 0, 0, 0, 0, 0, 0, 20000000⟩
    ⟨50, "A", "d", "ip", 2, 0, 0, 0⟩ (by decide) (by decide)

/-- Claim C5: a record-count limit `n` makes the scan start at index
`max 0 (totalRecords - n)` with all predicates applied only from that index
on: the limited scan equals the unlimited scan of the last `n` log records,
and the limit bounds the scanned range (hence also, incidentally, the number
of rows), not the number of matching rows collected. -/
theorem C5_scan_limit (domains : List domainsData) (clients : List clientsData)
    (cfg : ScanCfg) (log : List queriesData) (n : Int) :
    getAllQueries domains clients cfg log (some n) =
      getAllQueries domains clients cfg
        (log.drop (Int.toNat (max 0 ((log.length : Int) - n)))) none ∧
    (0 ≤ n → ((getAllQueries domains clients cfg log (some n)).length : Int) ≤ n) := by
  constructor
  · rw [getAllQueries, getAllQueries]
    by_cases hp : PRIVACY_MAXIMUM ≤ cfg.privacylevel
    · rw [if_pos hp, if_pos hp]
    · rw [if_neg hp, if_neg hp]
      simp
  · intro hn
    rw [getAllQueries]
    by_cases hp : PRIVACY_MAXIMUM ≤ cfg.privacylevel
    · rw [if_pos hp]
      simpa using hn
    · rw [if_neg hp]
      simp only []
      have h1 := List.length_filterMap_le (queryRow domains clients cfg)
        (log.drop (Int.toNat (max 0 ((log.length : Int) - n))))
      have h2 := List.length_drop (Int.toNat (max 0 ((log.length : Int) - n))) log
      omega

/-- Witness for C5: a log of four records with limit `2` scans only the last
two records; with only the oldest record matching the blocked-only filter the
limited scan returns no rows even though a matching row exists in the log. -/
theorem C5_witness :
    ((getAllQueries [⟨"d", 4, 1⟩] [⟨"ip", "", 4, 0⟩]
        ⟨0, 0, 0, false, 0, false, 0, 0, false, 0, false, true⟩
        [⟨10, 0, 1, 0, 0, 0, 0, 0, 0, 7⟩, ⟨11, 0, 2, 0, 0, 0, 0, 0, 0, 7⟩,
         ⟨12, 0, 2, 0, 0, 0, 0, 0, 0, 7⟩, ⟨13, 0, 2, 0, 0, 0, 0, 0, 0, 7⟩]
        (some 2)).length : Int) ≤ 2 ∧
    getAllQueries [⟨"d", 4, 1⟩] [⟨"ip", "", 4, 0⟩]
      ⟨0, 0, 0, false, 0, false, 0, 0, false, 0, false, true⟩
      [⟨10, 0, 1, 0, 0, 0, 0, 0, 0, 7⟩, ⟨11, 0, 2, 0, 0, 0, 0, 0, 0, 7⟩,
       ⟨12, 0, 2, 0, 0, 0, 0, 0, 0, 7⟩, ⟨13, 0, 2, 0, 0, 0, 0, 0, 0, 7⟩]
      (some 2) = [] ∧
    getAllQueries [⟨"d", 4, 1⟩] [⟨"ip", "", 4, 0⟩]
      ⟨0, 0, 0, false, 0, false, 0, 0, false, 0, false, true⟩
      [⟨10, 0, 1, 0, 0, 0, 0, 0, 0, 7⟩, ⟨11, 0, 2, 0, 0, 0, 0, 0, 0, 7⟩,
       ⟨12, 0, 2, 0, 0, 0, 0, 0, 0, 7⟩, ⟨13, 0, 2, 0, 0, 0, 0, 0, 0, 7⟩]
      none ≠ [] := by
  refine ⟨?_, by decide, by decide⟩
  exact (C5_scan_limit [⟨"d", 4, 1⟩] [⟨"ip", "", 4, 0⟩]
    ⟨0, 0, 0, false, 0, false, 0, 0, false, 0, false, true⟩
    [⟨10, 0, 1, 0, 0, 0, 0, 0, 0, 7⟩, ⟨11, 0, 2, 0, 0, 0, 0, 0, 0, 7⟩,
     ⟨12, 0, 2, 0, 0, 0, 0, 0, 0, 7⟩, ⟨13, 0, 2, 0, 0, 0, 0, 0, 0, 7⟩] 2).2 (by norm_num)

/-- Claim C6: when the current privacy level forbids domain disclosure
(for top domains) respectively client disclosure (for top clients), the
ranking call returns an empty sequence before processing any entity data;
there is no error outcome in the return type. -/
theorem C6_privacy_empty :
    (∀ (cfg : DomainsCfg) (table : List domainsData) (out : List (String × Int)),
      PRIVACY_HIDE_DOMAINS ≤ cfg.privacylevel →
      api_stats_top_domains_rel cfg table out → out = []) ∧
    (∀ (cfg : ClientsCfg) (table : List clientsData) (out : List (Int × String × String)),
      PRIVACY_HIDE_DOMAINS_CLIENTS ≤ cfg.privacylevel →
      getTopClients_rel cfg table out → out = []) := by
  constructor
  · intro cfg table out hp hrel
    unfold api_stats_top_domains_rel at hrel
    rwa [if_pos hp] at hrel
  · intro cfg table out hp hrel
    unfold getTopClients_rel at hrel
    rwa [if_pos hp] at hrel

/-- Witness for C6: at privacy level 1 the top-domains endpoint admits the
empty output and admits no non-empty output, even for a populated table. -/
theorem C6_witness :
    api_stats_top_domains_rel ⟨1, true, false, false, 10, true, true, none, []⟩
      [⟨"a", 5, 5⟩] [] ∧
    getTopClients_rel ⟨2, false, false, false, 10, none⟩ [⟨"ip", "nm", 5, 5⟩] [] ∧
    ¬ api_stats_top_domains_rel ⟨1, true, false, false, 10, true, true, none, []⟩
      [⟨"a", 5, 5⟩] [("a", 5)] := by
  refine ⟨?_, ?_, ?_⟩
  · unfold api_stats_top_domains_rel
    rw [if_pos (by decide)]
  · unfold getTopClients_rel
    rw [if_pos (by decide)]
  · intro h
    have := C6_privacy_empty.1 _ _ _ (by decide) h
    simp at this

/-- The `count` variable of the top-domains loop is either `-1` (no emission)
or strictly positive: both overwriting branches require the metric to be
strictly positive. -/
theorem topDomainsCount_cases (table : List domainsData) (cfg : DomainsCfg) (p : Int × Int) :
    topDomainsCount table cfg p = -1 ∨ 0 < topDomainsCount table cfg p := by
  simp only [topDomainsCount]
  split
  · next h =>
    right
    simp only [Bool.and_eq_true, decide_eq_true_eq] at h
    exact h.2
  · split
    · next h =>
      right
      simp only [Bool.and_eq_true, decide_eq_true_eq] at h
      exact h.2
    · left
      rfl

/-- An emitted top-domains row (guard `count > -1`) has a strictly positive
count. -/
theorem topDomainsCount_pos (table : List domainsData) (cfg : DomainsCfg) (p : Int × Int) :
    -1 < topDomainsCount table cfg p → 0 < topDomainsCount table cfg p := by
  intro h
  rcases topDomainsCount_cases table cfg p with hc | hc
  · omega
  · exact hc

/-- Claim C7: every ranking call emits at most `n` rows for row budget `n`,
and every emitted row carries a strictly positive count unless the zero-count
mode (`includezeroclients`, only present for clients and default-off) is
requested; an entity whose requested metric is `0` is skipped by default. -/
theorem C7_limit_and_positive :
    (∀ (cfg : DomainsCfg) (table : List domainsData) (out : List (String × Int)),
      api_stats_top_domains_rel cfg table out → 0 < cfg.show_ →
      ((out.length : Int) ≤ cfg.show_ ∧ ∀ r ∈ out, 0 < r.2)) ∧
    (∀ (cfg : ClientsCfg) (table : List clientsData) (out : List (Int × String × String)),
      getTopClients_rel cfg table out → 0 < cfg.count_ →
      ((out.length : Int) ≤ cfg.count_ ∧
       (cfg.includezeroclients = false → ∀ r ∈ out, 0 < r.1))) := by
  constructor
  · intro cfg table out hrel hshow
    unfold api_stats_top_domains_rel at hrel
    by_cases hp : PRIVACY_HIDE_DOMAINS ≤ cfg.privacylevel
    · rw [if_pos hp] at hrel
      subst hrel
      constructor
      · simp
        omega
      · intro r hr
        simp at hr
    · rw [if_neg hp] at hrel
      obtain ⟨sorted, _, rfl⟩ := hrel
      constructor
      · have := topDomainsLoop_length table cfg sorted 0 hshow
        omega
      · intro r hr
        obtain ⟨p, _, hre, _, hpos⟩ := topDomainsLoop_mem table cfg sorted 0 r hr
        subst hre
        exact topDomainsCount_pos table cfg p hpos
  · intro cfg table out hrel hcount
    unfold getTopClients_rel at hrel
    by_cases hp : PRIVACY_HIDE_DOMAINS_CLIENTS ≤ cfg.privacylevel
    · rw [if_pos hp] at hrel
      subst hrel
      constructor
      · simp
        omega
      · intro _ r hr
        simp at hr
    · rw [if_neg hp] at hrel
      obtain ⟨sorted, _, rfl⟩ := hrel
      constructor
      · have := topClientsLoop_length table cfg sorted 0 hcount
        omega
      · intro hzero r hr
        obtain ⟨p, _, hre, _, hemit⟩ := topClientsLoop_mem table cfg sorted 0 r hr
        subst hre
        rw [topClientsEmit, hzero] at hemit
        simpa using hemit

/-- Witness for C7: the spec's end-to-end example — three domains with blocked
counts 5, 0, 9 and budget 2 admit exactly the output `[(c,9),(a,5)]`; the
zero-count domain is skipped and both rows are positive. -/
theorem C7_witness :
    api_stats_top_domains_rel ⟨0, true, false, false, 2, true, true, none, []⟩
      [⟨"a", 5, 5⟩, ⟨"b", 0, 0⟩, ⟨"c", 9, 9⟩] [("c", 9), ("a", 5)] ∧
    (([("c", 9), ("a", 5)] : List (String × Int)).length : Int) ≤ 2 ∧
    ∀ r ∈ ([("c", 9), ("a", 5)] : List (String × Int)), 0 < r.2 := by
  have hrel : api_stats_top_domains_rel ⟨0, true, false, false, 2, true, true, none, []⟩
      [⟨"a", 5, 5⟩, ⟨"b", 0, 0⟩, ⟨"c", 9, 9⟩] [("c", 9), ("a", 5)] := by
    unfold api_stats_top_domains_rel
    rw [if_neg (by decide)]
    exact ⟨[(2, 9), (0, 5), (1, 0)], ⟨by decide, by decide⟩, by decide⟩
  have h := C7_limit_and_positive.1 _ _ _ hrel (by decide)
  exact ⟨hrel, h.1, h.2⟩

/-- A string reported as not contained by `insetupVarsArray` is not a member
of the exclusion list. -/
theorem not_mem_of_insetupVarsArray_eq_false {arr : List String} {s : String}
    (h : insetupVarsArray arr s = false) : s ∉ arr := by
  simpa [insetupVarsArray] using h

/-- Claim C2 (amended): the exclusion invariant holds for the ranking calls —
a domain whose display string is in the active `API_EXCLUDE_DOMAINS` set never
appears in the top-domains output, and a client whose IP or host name is in
the active `API_EXCLUDE_CLIENTS` set never appears in the top-clients output.
(The query-log scan `getAllQueries` consults no exclusion set at all; see the
counterexample.) -/
theorem C2_ranking_exclusion :
    (∀ (cfg : DomainsCfg) (table : List domainsData) (out : List (String × Int))
       (E : List String) (r : String × Int),
      cfg.audit = false → cfg.excludedomains = some E →
      api_stats_top_domains_rel cfg table out → r ∈ out → r.1 ∉ E) ∧
    (∀ (cfg : ClientsCfg) (table : List clientsData) (out : List (Int × String × String))
       (E : List String) (r : Int × String × String),
      cfg.excludeclients = some E →
      getTopClients_rel cfg table out → r ∈ out → r.2.1 ∉ E ∧ r.2.2 ∉ E) := by
  constructor
  · intro cfg table out E r haudit hE hrel hmem
    unfold api_stats_top_domains_rel at hrel
    by_cases hp : PRIVACY_HIDE_DOMAINS ≤ cfg.privacylevel
    · rw [if_pos hp] at hrel
      subst hrel
      simp at hmem
    · rw [if_neg hp] at hrel
      obtain ⟨sorted, _, rfl⟩ := hrel
      obtain ⟨p, _, hre, hskip, _⟩ := topDomainsLoop_mem table cfg sorted 0 r hmem
      subst hre
      rw [topDomainsSkip, hE, haudit] at hskip
      simp only [Bool.not_false, Bool.true_and, Bool.or_eq_false_iff] at hskip
      exact not_mem_of_insetupVarsArray_eq_false hskip.1.1
  · intro cfg table out E r hE hrel hmem
    unfold getTopClients_rel at hrel
    by_cases hp : PRIVACY_HIDE_DOMAINS_CLIENTS ≤ cfg.privacylevel
    · rw [if_pos hp] at hrel
      subst hrel
      simp at hmem
    · rw [if_neg hp] at hrel
      obtain ⟨sorted, _, rfl⟩ := hrel
      obtain ⟨p, _, hre, hskip, _⟩ := topClientsLoop_mem table cfg sorted 0 r hmem
      subst hre
      rw [topClientsSkip, hE] at hskip
      simp only [Bool.or_eq_false_iff] at hskip
      exact ⟨not_mem_of_insetupVarsArray_eq_false hskip.1.1,
             not_mem_of_insetupVarsArray_eq_false hskip.1.2⟩

/-- Counterexample for C2: the query-log scan applies no exclusion filtering.
With the active exclusion set `["ads"]`, the scan over a one-record log whose
query resolves to domain `"ads"` still emits that row: the emitted row's
domain string is a member of the exclusion set, contradicting the claim that
no ranking or log call ever returns an excluded entity. -/
theorem C2_counterexample :
    getAllQueries [⟨"ads", 1, 0⟩] [⟨"10.0.0.1", "", 1, 0⟩]
      ⟨0, 0, 0, false, 0, false, 0, 0, false, 0, true, true⟩
      [⟨100, 0, 2, 0, 0, 0, 0, 0, 0, 42⟩] none =
      [⟨100, "A", "ads", "10.0.0.1", 2, 0, 0, 42⟩] ∧
    "ads" ∈ ["ads"] ∧
    (⟨100, "A", "ads", "10.0.0.1", 2, 0, 0, 42⟩ : QueryRow).domain = "ads" :=
  ⟨by decide, by decide, rfl⟩

/-- Witness for C2: at privacy level 0 with exclusion set `["b"]`, the
top-domains output `[("a", 5)]` is admissible and its only row is not
excluded; the domain `"b"` (count 7) is skipped although it dominates. -/
theorem C2_witness :
    api_stats_top_domains_rel ⟨0, true, false, false, 10, true, true, some ["b"], []⟩
      [⟨"a", 5, 5⟩, ⟨"b", 7, 7⟩] [("a", 5)] ∧
    ("a", (5 : Int)).1 ∉ (["b"] : List String) := by
  have hrel : api_stats_top_domains_rel ⟨0, true, false, false, 10, true, true, some ["b"], []⟩
      [⟨"a", 5, 5⟩, ⟨"b", 7, 7⟩] [("a", 5)] := by
    unfold api_stats_top_domains_rel
    rw [if_neg (by decide)]
    exact ⟨[(1, 7), (0, 5)], ⟨by decide, by decide⟩, by decide⟩
  exact ⟨hrel, C2_ranking_exclusion.1 _ _ _ ["b"] ("a", 5) rfl rfl hrel (by decide)⟩

/-- Counterexample for C1: the comparators compare only the count field, so
`qsort` may order equal-count entities either way. For a table of two domains
with identical blocked counts (identifier 0 is `"a"`, identifier 1 is `"b"`,
temporary array `[(0, 5), (1, 5)]`), the output placing the higher identifier
first — `[("b", 5), ("a", 5)]` — is an admissible behaviour of the ranking
call in descending and in ascending mode alike, contradicting the claimed
lower-identifier-first tie-break. -/
theorem C1_counterexample :
    api_stats_top_domains_rel ⟨0, true, false, false, 10, true, true, none, []⟩
      [⟨"a", 5, 5⟩, ⟨"b", 5, 5⟩] [("b", 5), ("a", 5)] ∧
    api_stats_top_domains_rel ⟨0, true, true, false, 10, true, true, none, []⟩
      [⟨"a", 5, 5⟩, ⟨"b", 5, 5⟩] [("b", 5), ("a", 5)] ∧
    domainsTemparray [⟨"a", 5, 5⟩, ⟨"b", 5, 5⟩] true = [(0, 5), (1, 5)] ∧
    (getDomain [⟨"a", 5, 5⟩, ⟨"b", 5, 5⟩] 0).domainpos = "a" ∧
    (getDomain [⟨"a", 5, 5⟩, ⟨"b", 5, 5⟩] 1).domainpos = "b" := by
  refine ⟨?_, ?_, by decide, rfl, rfl⟩
  · unfold api_stats_top_domains_rel
    rw [if_neg (by decide)]
    exact ⟨[(1, 5), (0, 5)], ⟨by decide, by decide⟩, by decide⟩
  · unfold api_stats_top_domains_rel
    rw [if_neg (by decide)]
    exact ⟨[(1, 5), (0, 5)], ⟨by decide, by decide⟩, by decide⟩

/-- Claim C1 (amended): on entities with equal metric values both comparison
functions return `0`, so the code fixes no relative order for ties: for any
two pairs with equal counts, the order with the second pair first also
satisfies the qsort contract, in ascending and descending mode alike. The
emitted order of equal-count entities is therefore unspecified rather than
lower-identifier-first. -/
theorem C1_tie_order_unspecified (a b : Int × Int) :
    a.2 = b.2 →
    cmpasc a b = 0 ∧ cmpdesc a b = 0 ∧
    qsortPost cmpasc [a, b] [b, a] ∧ qsortPost cmpdesc [a, b] [b, a] := by
  intro h
  refine ⟨?_, ?_, ⟨List.Perm.swap b a [], ?_⟩, ⟨List.Perm.swap b a [], ?_⟩⟩
  · simp [cmpasc, h]
  · simp [cmpdesc, h]
  · simp [sortedByCmp, cmpasc, ← h]
  · simp [sortedByCmp, cmpdesc, ← h]

/-- Witness for C1: instantiation at the pairs `(0, 5)` and `(1, 5)`. -/
theorem C1_witness :
    cmpasc (0, 5) (1, 5) = 0 ∧ cmpdesc (0, 5) (1, 5) = 0 ∧
    qsortPost cmpasc [(0, 5), (1, 5)] [(1, 5), (0, 5)] ∧
    qsortPost cmpdesc [(0, 5), (1, 5)] [(1, 5), (0, 5)] :=
  C1_tie_order_unspecified (0, 5) (1, 5) rfl

/-- Counterexample for C3: the scan classifies exactly three — not four —
statuses as "blocked": among all status values below 8 only `1` (gravity),
`4` (wildcard) and `5` (blacklist) are blocked, and in particular the next
status values `0`, `6`, `7` are not. (The amended theorem shows no status
value at all outside `{1, 4, 5}` is classified blocked.) -/
theorem C3_counterexample :
    (List.range 8).filter (fun s => isBlockedStatus s) = [1, 4, 5] ∧
    ((List.range 8).filter (fun s => isBlockedStatus s)).length = 3 ∧
    isBlockedStatus 0 = false ∧ isBlockedStatus 6 = false ∧ isBlockedStatus 7 = false :=
  ⟨by decide, by decide, by decide, by decide, by decide⟩

/-- Claim C3 (amended): exactly three blocking statuses (gravity, wildcard,
blacklist) are classified "blocked" and two answering statuses (forwarded,
cache) "permitted"; a record whose status class has its show-flag disabled is
skipped by the scan; and the "answered from blocklist" upstream filter
(`forwarddestid = -2`) matches exactly the three blocked statuses. -/
theorem C3_status_classes :
    (∀ s : Nat, isBlockedStatus s = true ↔
      s = QUERY_GRAVITY ∨ s = QUERY_WILDCARD ∨ s = QUERY_BLACKLIST) ∧
    (∀ s : Nat, isPermittedStatus s = true ↔ s = QUERY_FORWARDED ∨ s = QUERY_CACHE) ∧
    (∀ (cfg : ScanCfg) (q : queriesData),
      isBlockedStatus q.status = true → cfg.showblocked = false →
      queryPasses cfg q = false) ∧
    (∀ (cfg : ScanCfg) (q : queriesData),
      isPermittedStatus q.status = true → cfg.showpermitted = false →
      queryPasses cfg q = false) ∧
    (∀ (cfg : ScanCfg) (q : queriesData), cfg.forwarddestid = -2 →
      (forwarddestPasses cfg q = true ↔ isBlockedStatus q.status = true)) := by
  refine ⟨?_, ?_, ?_, ?_, ?_⟩
  · intro s
    simp only [isBlockedStatus, Bool.or_eq_true, beq_iff_eq, QUERY_GRAVITY,
      QUERY_WILDCARD, QUERY_BLACKLIST]
    tauto
  · intro s
    simp [isPermittedStatus, QUERY_FORWARDED, QUERY_CACHE]
  · intro cfg q hb hs
    simp [queryPasses, hb, hs]
  · intro cfg q hb hs
    simp [queryPasses, hb, hs]
  · intro cfg q hfd
    rw [forwarddestPasses, hfd]
    simp

/-- Witness for C3: status `1` is blocked; a gravity-blocked record is skipped
when `showblocked` is off; a forwarded record is skipped when `showpermitted`
is off; the blocklist upstream filter keeps a wildcard-blocked record. -/
theorem C3_witness :
    (isBlockedStatus 1 = true ↔
      (1 = QUERY_GRAVITY ∨ 1 = QUERY_WILDCARD ∨ 1 = QUERY_BLACKLIST)) ∧
    queryPasses ⟨0, 0, 0, false, 0, false, 0, 0, false, 0, true, false⟩
      ⟨0, 0, 1, 0, 0, 0, 0, 0, 0, 0⟩ = false ∧
    queryPasses ⟨0, 0, 0, false, 0, false, 0, 0, false, 0, false, true⟩
      ⟨0, 0, 2, 0, 0, 0, 0, 0, 0, 0⟩ = false ∧
    (forwarddestPasses ⟨0, 0, 0, false, 0, false, 0, 0, true, -2, true, true⟩
      ⟨0, 0, 4, 0, 0, 0, 0, 0, 0, 0⟩ = true ↔ isBlockedStatus 4 = true) :=
  ⟨C3_status_classes.1 1,
   C3_status_classes.2.2.1 ⟨0, 0, 0, false, 0, false, 0, 0, false, 0, true, false⟩
     ⟨0, 0, 1, 0, 0, 0, 0, 0, 0, 0⟩ (by decide) rfl,
   C3_status_classes.2.2.2.1 ⟨0, 0, 0, false, 0, false, 0, 0, false, 0, false, true⟩
     ⟨0, 0, 2, 0, 0, 0, 0, 0, 0, 0⟩ (by decide) rfl,
   C3_status_classes.2.2.2.2 ⟨0, 0, 0, false, 0, false, 0, 0, true, -2, true, true⟩
     ⟨0, 0, 4, 0, 0, 0, 0, 0, 0, 0⟩ rfl⟩

/-- Counterexample for C4: a two-slot series whose only non-zero slot is index
0 (timestamp 0, before now = 100) is followed by a zero slot with timestamp 10,
also before now. The window end is the first slot with timestamp `>= now` — no
such slot exists, so the end is the array length 2 — and the emitted series is
the range `(0, 2)` containing both slots, not `(0, 1)` as claimed. -/
theorem C4_counterexample :
    overTime_from [⟨0, 1, 0⟩, ⟨10, 0, 0⟩] = some 0 ∧
    ((0 : Int) < 100 ∧ (10 : Int) < 100) ∧
    overTime_until [⟨0, 1, 0⟩, ⟨10, 0, 0⟩] 100 = 2 ∧
    api_stats_overTime_history [⟨0, 1, 0⟩, ⟨10, 0, 0⟩] 100 =
      [⟨0, 1, 0⟩, ⟨10, 0, 0⟩] ∧
    api_stats_overTime_history [⟨0, 1, 0⟩, ⟨10, 0, 0⟩] 100 ≠ [⟨0, 1, 0⟩] :=
  ⟨by decide, by decide, by decide, by decide, by decide⟩

/-- Claim C4 (amended): over an all-zero series the window locator emits an
empty series; over a series whose single non-zero slot sits at index `k` (with
timestamp at least slot 0's timestamp) the window starts at `k` and ends at
the first slot whose timestamp is `>= now`, or the array length if none — the
emitted range is `(k, end)`, which equals `(k, k+1)` only when slot `k+1` is
that first slot. -/
theorem C4_window (slots : List overTimeData) (now : Int) (k : Nat) :
    ((∀ s ∈ slots, s.total = 0 ∧ s.blocked = 0) →
      api_stats_overTime_history slots now = []) ∧
    (k < slots.length →
     (0 < (slots.getD k defaultSlot).total ∨ 0 < (slots.getD k defaultSlot).blocked) →
     (∀ j, j < slots.length → j ≠ k →
        (slots.getD j defaultSlot).total = 0 ∧ (slots.getD j defaultSlot).blocked = 0) →
     overTime_mintime slots ≤ (slots.getD k defaultSlot).timestamp →
     (overTime_from slots = some k ∧
      api_stats_overTime_history slots now =
        (slots.take (overTime_until slots now)).drop k)) := by
  constructor
  · intro hzero
    have hnone : overTime_from slots = none := by
      rw [overTime_from]
      apply firstIdx_eq_none
      intro a ha
      simp [(hzero a ha).1, (hzero a ha).2]
    rw [api_stats_overTime_history, hnone]
  · intro hk hnz hothers hmin
    have hfrom : overTime_from slots = some k := by
      rw [overTime_from]
      apply firstIdx_eq_some _ defaultSlot _ _ hk
      · intro j hj
        have hzero := hothers j (by omega) (by omega)
        simp only [List.getD_eq_getElem?_getD] at hzero
        simp [hzero.1, hzero.2]
      · simp only [List.getD_eq_getElem?_getD] at hnz hmin
        rcases hnz with h | h
        · simp [h, hmin]
        · simp [h, hmin]
    refine ⟨hfrom, ?_⟩
    rw [api_stats_overTime_history, hfrom]

/-- Witness for C4: the all-zero two-slot series yields an empty series; the
series with its single non-zero slot at index 1 yields the range starting at
1 and ending at the located until-index. -/
theorem C4_witness :
    api_stats_overTime_history [⟨0, 0, 0⟩, ⟨5, 0, 0⟩] 100 = [] ∧
    (overTime_from [⟨0, 0, 0⟩, ⟨5, 1, 0⟩] = some 1 ∧
     api_stats_overTime_history [⟨0, 0, 0⟩, ⟨5, 1, 0⟩] 100 =
       (([⟨0, 0, 0⟩, ⟨5, 1, 0⟩] : List overTimeData).take
         (overTime_until [⟨0, 0, 0⟩, ⟨5, 1, 0⟩] 100)).drop 1) := by
  constructor
  · exact (C4_window [⟨0, 0, 0⟩, ⟨5, 0, 0⟩] 100 0).1 (by decide)
  · refine (C4_window [⟨0, 0, 0⟩, ⟨5, 1, 0⟩] 100 1).2 (by decide) (by decide) ?_ (by decide)
    intro j hj hne
    have hj2 : j < 2 := by simpa using hj
    have : j = 0 := by omega
    subst this
    exact ⟨rfl, rfl⟩

/-- When no index strictly above `0` holds a blocked query, the backward scan
of `getRecentBlocked` emits nothing, from any start index and counter state. -/
theorem recentBlockedLoop_eq_nil (domains : List domainsData) (log : List queriesData)
    (num : Int) (h : ∀ i, 0 < i → isBlockedStatus (getQuery log i).status = false) :
    ∀ (i : Nat) (found : Int), recentBlockedLoop domains log num i found = [] := by
  intro i
  induction i with
  | zero => intro found; rfl
  | succ i ih =>
    intro found
    have hb := h (i + 1) (Nat.succ_pos i)
    rw [recentBlockedLoop, hb]
    simp only [Bool.false_eq_true, if_false]
    split
    · rfl
    · exact ih found

/-- Claim C9: the backward scan's loop condition is `queryID > 0`, so the
record at index `0` — the oldest record — is never examined: a log whose only
blocked query sits at index `0` makes `getRecentBlocked` emit nothing, for any
requested entry count. -/
theorem C9_oldest_never_examined (domains : List domainsData) (log : List queriesData)
    (numArg : Option Int) :
    (∀ i, 0 < i → i < log.length → isBlockedStatus (getQuery log i).status = false) →
    getRecentBlocked domains log numArg = [] := by
  intro h
  have h' : ∀ i, 0 < i → isBlockedStatus (getQuery log i).status = false := by
    intro i hi
    by_cases hlen : i < log.length
    · exact h i hi hlen
    · rw [getQuery, List.getD_eq_getElem?_getD, List.getElem?_eq_none (by omega)]
      rfl
  unfold getRecentBlocked
  exact recentBlockedLoop_eq_nil domains log _ h' _ _

/-- Witness for C9: a one-record log whose single record (index 0) is blocked
by gravity; `getRecentBlocked` emits nothing although a blocked query
exists. -/
theorem C9_witness :
    isBlockedStatus (getQuery [⟨10, 0, 1, 0, 0, 0, 0, 0, 0, 7⟩] 0).status = true ∧
    getRecentBlocked [⟨"d", 1, 1⟩] [⟨10, 0, 1, 0, 0, 0, 0, 0, 0, 7⟩] none = [] := by
  constructor
  · decide
  · exact C9_oldest_never_examined [⟨"d", 1, 1⟩] [⟨10, 0, 1, 0, 0, 0, 0, 0, 0, 7⟩] none
      (by intro i h1 h2; simp at h2; omega)

